import Mathlib

/-!
Shallow embedding of the Conversation Synchronization & Unread-Tracking
Engine of the `ChatPage` component (webui `Layout.tsx`).

Modelling conventions:
* JS `Record<string, number>` objects read through `x[k] || 0` are embedded
  as total functions `String → Nat` defaulting to `0`; `delete x[k]` is
  embedded as setting the entry to `0` (observationally equal through the
  `|| 0` reads the component performs).
* `new Date(ts).getTime()` values are embedded as `Nat` millisecond stamps.
* `Array.prototype.sort` with the comparator `(a, b) => timeB - timeA` is a
  stable descending sort by the numeric key; it is embedded as
  `List.insertionSort` with the relation `contactGE` (key of the right
  element ≤ key of the left), which is stable and produces exactly the
  comparator's order.
* The poll tick's only fallible step is the initial `await api.getMessageLog`;
  every state write is synchronous code after it, so a failed tick is the
  `none` case of the fetched window and performs no state write.
* The poll effect's dependency array is `[selectedContact]`, so the interval
  closure of one selection epoch keeps the `lastCheckedTime` it captured at
  effect setup: `setLastCheckedTime(Date.now())` writes state that only the
  next epoch's closure re-reads. `epochTickOk`/`runEpoch` model the program's
  in-epoch ticks, filtering every tick by the frozen cursor; `runTicks`
  chains `checkNewMessagesOk` with an advancing cursor as the spec intends,
  and is used only where the cursor is not load-bearing (the viewed-set
  skip reads the live `viewedChatsRef`).
-/

namespace Chat

/-- An entry of the flat message log returned by `GET /messages/log`
(fields used by `checkNewMessages`). -/
structure LogMsg where
  timestamp : Nat
  message_type : String
  user_id : String
  group_id : String
  is_self : Bool
  is_system : Bool
  message : String
deriving DecidableEq

/-- The `Contact` record of `ChatPage` (fields the engine reads or writes;
`avatar`, `member_count`, `max_member_count`, `remark` are carried opaquely
by the source and are irrelevant to every claim). -/
structure Contact where
  id : String
  name : String
  type : String
  lastMessage : Option String
  lastMessageTime : Option Nat
  unread : Option Nat
deriving DecidableEq

/-- A thread message returned by `GET /chat/history/{kind}/{id}`. -/
structure HistMsg where
  id : String
  timestamp : Nat
  user_id : String
  message : String
  is_self : Bool
deriving DecidableEq

/-- `` `${contact.type}-${contact.id}` `` -/
def contactKeyOf (c : Contact) : String :=
  c.type ++ "-" ++ c.id

/-- `msg.message_type === 'group' ? `group-${group_id}` : `private-${user_id}`` -/
def msgContactKey (m : LogMsg) : String :=
  if m.message_type = "group" then "group-" ++ m.group_id else "private-" ++ m.user_id

/-- The React state of `ChatPage` that the engine reads and writes. -/
structure ChatState where
  contacts : List Contact
  selectedContact : Option Contact
  messages : List HistMsg
  unreadCounts : String → Nat
  lastCheckedTime : Nat
  viewedChats : List String
  prevMessagesLength : Nat
  inputMessage : String
  sending : Bool

/-- The key of the currently selected contact, if any. -/
def selectedKeyOf (s : ChatState) : Option String :=
  s.selectedContact.map contactKeyOf

/-- `newUnreadCounts[key] = (newUnreadCounts[key] || 0) + 1` -/
def bump (f : String → Nat) (k : String) : String → Nat :=
  fun x => if x = k then f k + 1 else f x

/-- One step of the `newMessagesOnly.forEach` loop of `checkNewMessages`:
skip system and self messages, then skip viewed chats, then skip the
currently selected contact, otherwise increment the per-tick count. -/
def countNewMsg (viewed : List String) (selectedKey : Option String)
    (acc : String → Nat) (m : LogMsg) : String → Nat :=
  if m.is_system || m.is_self then acc
  else
    let key := msgContactKey m
    if viewed.contains key then acc
    else
      match selectedKey with
      | some sk => if key = sk then acc else bump acc key
      | none => bump acc key

/-- The per-tick unread counts (`newUnreadCounts`) computed from the
messages newer than the cursor. -/
def newUnreadCountsOf (viewed : List String) (selectedKey : Option String)
    (newMessagesOnly : List LogMsg) : String → Nat :=
  newMessagesOnly.foldl (countNewMsg viewed selectedKey) fun _ => 0

/-- The contact/message matching used to build `contactMessages`. -/
def contactMatches (c : Contact) (m : LogMsg) : Bool :=
  if m.message_type = "group" && c.type = "group" then m.group_id = c.id
  else if m.message_type = "private" && c.type = "private" then m.user_id = c.id
  else false

/-- Per-contact update inside `setContacts`: when the window has matching
messages, overwrite `lastMessageTime`/`lastMessage`/`unread` from the first
(newest) match and the per-tick counts; otherwise return the contact
unchanged. -/
def updateContact (allMessages : List LogMsg) (newUnreadCounts : String → Nat)
    (c : Contact) : Contact :=
  match allMessages.filter (contactMatches c) with
  | [] => c
  | lastMsg :: _ =>
      { c with
        lastMessageTime := some lastMsg.timestamp,
        lastMessage := some (lastMsg.message.take 30),
        unread := some (newUnreadCounts (contactKeyOf c)) }

/-- The sort key: `a.lastMessageTime || 0`. -/
def contactTimeKey (c : Contact) : Nat :=
  c.lastMessageTime.getD 0

/-- The order decided by the comparator `(a, b) => timeB - timeA`:
`a` may come before `b` exactly when `b`'s key is at most `a`'s. -/
def contactGE (a b : Contact) : Prop :=
  contactTimeKey b ≤ contactTimeKey a

instance : DecidableRel contactGE := fun a b =>
  inferInstanceAs (Decidable (contactTimeKey b ≤ contactTimeKey a))

instance : IsTotal Contact contactGE :=
  ⟨fun a b => (le_total (contactTimeKey b) (contactTimeKey a)).imp id id⟩

instance : IsTrans Contact contactGE :=
  ⟨fun _ _ _ hab hbc => le_trans hbc hab⟩

/-- `updatedContacts.sort((a, b) => timeB - timeA)`: the stable descending
sort by `lastMessageTime || 0`. -/
def sortContacts (l : List Contact) : List Contact :=
  l.insertionSort contactGE

/-- The whole `setContacts` updater of `checkNewMessages`. -/
def reconcileContacts (allMessages : List LogMsg) (newUnreadCounts : String → Nat)
    (prevContacts : List Contact) : List Contact :=
  sortContacts (prevContacts.map (updateContact allMessages newUnreadCounts))

/-- A successful poll tick (`checkNewMessages` with the fetch resolved):
filter the window to messages newer than the cursor, accumulate the
per-tick unread counts additively into the session map, advance the cursor
to `now`, and reconcile the contact list against the full window. -/
def checkNewMessagesOk (s : ChatState) (allMessages : List LogMsg) (now : Nat) :
    ChatState :=
  let newMessagesOnly := allMessages.filter fun m => decide (s.lastCheckedTime < m.timestamp)
  let newUnreadCounts := newUnreadCountsOf s.viewedChats (selectedKeyOf s) newMessagesOnly
  { s with
    unreadCounts := fun k => s.unreadCounts k + newUnreadCounts k,
    lastCheckedTime := now,
    contacts := reconcileContacts allMessages newUnreadCounts s.contacts }

/-- A poll tick including the failure path: the `catch` only logs, so a
failed fetch (`none`) performs no state write. -/
def checkNewMessages (s : ChatState) (fetched : Option (List LogMsg)) (now : Nat) :
    ChatState :=
  match fetched with
  | none => s
  | some allMessages => checkNewMessagesOk s allMessages now

/-- Run a sequence of successful poll ticks, each given as
`(window, Date.now() at the tick)`, threading the advanced cursor into the
next tick's filter. This is the cursor semantics the spec intends; the
program's interval closure within one selection epoch instead keeps the
frozen cursor (see `runEpoch`), so `runTicks` is used only for properties
that do not depend on the cursor. -/
def runTicks (s : ChatState) (ticks : List (List LogMsg × Nat)) : ChatState :=
  ticks.foldl (fun st p => checkNewMessagesOk st p.1 p.2) s

/-- One tick of the interval closure of a selection epoch: the poll effect
re-runs only on `[selectedContact]`, so the closure filters by the
`lastCheckedTime` captured at effect setup (`cursor`), not by the state
written since. The `setLastCheckedTime(Date.now())` write still happens (it
is what the next epoch's closure will capture); `viewedChatsRef` is a live
ref and the selection is constant within an epoch, so those are read from
the current state. -/
def epochTickOk (cursor : Nat) (s : ChatState) (allMessages : List LogMsg)
    (now : Nat) : ChatState :=
  let newMessagesOnly := allMessages.filter fun m => decide (cursor < m.timestamp)
  let newUnreadCounts := newUnreadCountsOf s.viewedChats (selectedKeyOf s) newMessagesOnly
  { s with
    unreadCounts := fun k => s.unreadCounts k + newUnreadCounts k,
    lastCheckedTime := now,
    contacts := reconcileContacts allMessages newUnreadCounts s.contacts }

/-- Run the successful ticks of one selection epoch: every tick filters by
the same frozen `cursor` captured when the poll effect ran. -/
def runEpoch (cursor : Nat) (s : ChatState) (ticks : List (List LogMsg × Nat)) :
    ChatState :=
  ticks.foldl (fun st p => epochTickOk cursor st p.1 p.2) s

/-- The contact `onClick` handler: select, add the key to the viewed set,
and delete the key's entry from the unread map; the selection effect also
resets the scroll baseline `prevMessagesLengthRef` to `0`. -/
def selectContact (s : ChatState) (c : Contact) : ChatState :=
  let key := contactKeyOf c
  { s with
    selectedContact := some c,
    viewedChats := if s.viewedChats.contains key then s.viewedChats else key :: s.viewedChats,
    unreadCounts := fun k => if k = key then 0 else s.unreadCounts k,
    prevMessagesLength := 0 }

/-- The mobile back button: `setSelectedContact(null)`. -/
def deselectContact (s : ChatState) : ChatState :=
  { s with selectedContact := none }

/-- `loadMessages`: on success replace the thread wholesale with the fetched
history; on failure only log, leaving the thread unchanged. -/
def loadMessages (s : ChatState) (fetched : Option (List HistMsg)) : ChatState :=
  match fetched with
  | none => s
  | some data => { s with messages := data }

/-- What one run of the scroll effect does to the view. -/
inductive ScrollEvent where
  | scrollSmooth
  | scrollInstant
  | noScroll
deriving DecidableEq

/-- The scroll effect body: `length > prev && prev > 0` → smooth scroll;
else `length > 0 && prev === 0` → instant scroll; else nothing; and the
baseline is always set to the new length. -/
def scrollStep (prevLen newLen : Nat) : ScrollEvent × Nat :=
  (if prevLen < newLen ∧ 0 < prevLen then ScrollEvent.scrollSmooth
   else if 0 < newLen ∧ prevLen = 0 then ScrollEvent.scrollInstant
   else ScrollEvent.noScroll,
   newLen)

/-- `scrollToBottom`: the `'instant'` argument maps to the `'auto'`
(non-animated) scroll behavior, anything else to `'smooth'`. -/
def scrollToBottom (behavior : String) : String :=
  if behavior = "instant" then "auto" else "smooth"

/-- The scroll events emitted by a sequence of thread-length updates,
starting from the given baseline. -/
def runScroll (prevLen : Nat) (lens : List Nat) : List ScrollEvent :=
  match lens with
  | [] => []
  | n :: rest => (scrollStep prevLen n).1 :: runScroll n rest

/-- The externally visible outcome of one `handleSendMessage` call. -/
inductive SendOutcome where
  | notSent
  | sent
  | failed (alertText : String)
deriving DecidableEq

/-- JS `String.prototype.trim`: strip leading and trailing whitespace
(executable model of the `inputMessage.trim()` guard). -/
def jsTrim (s : String) : String :=
  ⟨((s.data.dropWhile Char.isWhitespace).reverse.dropWhile Char.isWhitespace).reverse⟩

/-- `handleSendMessage`: guard on empty input / no selection / already
sending; on success clear the input (the sent message is not appended —
a later `loadMessages` fetch makes it visible); on failure alert with the
server detail or the fallback text; `finally` resets `sending`. -/
def handleSendMessage (s : ChatState) (result : Except (Option String) Unit) :
    ChatState × SendOutcome :=
  if (jsTrim s.inputMessage).isEmpty || s.selectedContact.isNone || s.sending then
    (s, SendOutcome.notSent)
  else
    match result with
    | Except.ok _ => ({ s with inputMessage := "", sending := false }, SendOutcome.sent)
    | Except.error detail =>
        ({ s with sending := false }, SendOutcome.failed (detail.getD "发送失败"))

/-- Whether one `newMessagesOnly.forEach` step increments the per-tick entry
of `key`: the message passes the system/self skip, the viewed-chat skip and
the selected-contact skip, and its conversation key is `key`. -/
def tickCounts (viewed : List String) (sel : Option String) (key : String)
    (m : LogMsg) : Bool :=
  !(m.is_system || m.is_self) && !(viewed.contains (msgContactKey m)) &&
    (match sel with
     | some sk => !(decide (msgContactKey m = sk))
     | none => true) &&
    decide (msgContactKey m = key)

/-- The number shown on a contact's list badge: `unreadCounts[contactKey] || 0`,
read from the session unread map, not from the `Contact` record. -/
def badgeCount (s : ChatState) (key : String) : Nat :=
  s.unreadCounts key

/-- Sample contact with no `lastMessageTime` (Scenario D's `A`). -/
def contactA : Contact := ⟨"a", "A", "private", none, none, none⟩

/-- Sample contact with `lastMessageTime = 100` (Scenario D's `B`). -/
def contactB : Contact := ⟨"b", "B", "private", none, some 100, none⟩

/-- Sample contact with `lastMessageTime = 200` (Scenario D's `C`). -/
def contactC : Contact := ⟨"c", "C", "private", none, some 200, none⟩

/-- A sample non-self, non-system group message for group `100`. -/
def msgG (ts : Nat) : LogMsg := ⟨ts, "group", "u1", "100", false, false, "hi"⟩

/-- The directory entry for group `100`, as created by `loadContacts`. -/
def contactG : Contact := ⟨"100", "G", "group", none, none, none⟩

/-- A group-`100` contact whose stored `lastMessageTime` is `200`. -/
def contactG200 : Contact := ⟨"100", "G", "group", none, some 200, none⟩

/-- A group-`100` contact whose stored `lastMessageTime` is `100`. -/
def contactG100 : Contact := ⟨"100", "G", "group", none, some 100, none⟩

/-- A fresh session whose contact list is just `contactG`. -/
def chatS0 : ChatState := ⟨[contactG], none, [], fun _ => 0, 0, [], 0, "", false⟩

/-- `chatS0` after the first tick of its epoch, whose window brings one new
message for group `100` (on an epoch's first tick the closure's frozen
cursor is exactly `s.lastCheckedTime`, so `checkNewMessagesOk` coincides
with `epochTickOk`). -/
def chatT1 : ChatState := checkNewMessagesOk chatS0 [msgG 5] 10

/-- `chatT1` after a tick whose window has no message for group `100` (an
empty window filters to empty under any cursor, so the frozen cursor is
irrelevant here). -/
def chatT2 : ChatState := checkNewMessagesOk chatT1 [] 20

/-- `chatT1` after a second tick of the same selection epoch: the interval
closure still filters by the frozen cursor `0`, which re-admits `msgG 5`
alongside the new `msgG 15`. -/
def chatE2b : ChatState := epochTickOk chatS0.lastCheckedTime chatT1 [msgG 15, msgG 5] 20

/-- A session with group `100` selected and viewed, nonempty input, not
currently sending. -/
def chatSendState : ChatState :=
  ⟨[contactG], some contactG, [], fun _ => 0, 0, ["group-100"], 0, "hello", false⟩

end Chat

namespace Chat

/-! ### Helper lemmas about the per-tick unread counting loop -/

theorem countNewMsg_apply (viewed : List String) (sel : Option String)
    (acc : String → Nat) (m : LogMsg) (key : String) :
    countNewMsg viewed sel acc m key
      = acc key + (if tickCounts viewed sel key m then 1 else 0) := by
  have hbump : bump acc (msgContactKey m) key
      = acc key + (if msgContactKey m = key then 1 else 0) := by
    unfold bump
    by_cases h : msgContactKey m = key
    · rw [if_pos h.symm, if_pos h, h]
    · rw [if_neg (fun hh => h hh.symm), if_neg h, Nat.add_zero]
  unfold countNewMsg tickCounts
  rcases sel with _ | sk
  · cases hsys : m.is_system <;> cases hself : m.is_self <;>
      by_cases hv : msgContactKey m ∈ viewed <;>
        simp [hsys, hself, hv, hbump]
  · cases hsys : m.is_system <;> cases hself : m.is_self <;>
      by_cases hv : msgContactKey m ∈ viewed <;>
        by_cases hsk : msgContactKey m = sk <;>
          simp [hsys, hself, hv, hsk, hbump]

theorem foldl_countNewMsg (viewed : List String) (sel : Option String) (key : String) :
    ∀ (msgs : List LogMsg) (acc : String → Nat),
      msgs.foldl (countNewMsg viewed sel) acc key
        = acc key + (msgs.filter (tickCounts viewed sel key)).length
  | [], acc => by simp
  | m :: msgs, acc => by
      rw [List.foldl_cons, foldl_countNewMsg viewed sel key msgs, countNewMsg_apply,
        List.filter_cons]
      by_cases h : tickCounts viewed sel key m = true
      · rw [if_pos h, if_pos h, List.length_cons]
        omega
      · rw [if_neg h, if_neg h]
        omega

theorem newUnreadCountsOf_apply (viewed : List String) (sel : Option String)
    (msgs : List LogMsg) (key : String) :
    newUnreadCountsOf viewed sel msgs key
      = (msgs.filter (tickCounts viewed sel key)).length := by
  unfold newUnreadCountsOf
  rw [foldl_countNewMsg, Nat.zero_add]

theorem checkNewMessagesOk_unreadCounts (s : ChatState) (w : List LogMsg) (now : Nat)
    (key : String) :
    (checkNewMessagesOk s w now).unreadCounts key
      = s.unreadCounts key
        + newUnreadCountsOf s.viewedChats (selectedKeyOf s)
            (w.filter fun m => decide (s.lastCheckedTime < m.timestamp)) key := rfl

theorem tickCounts_eq_false_of_viewed (viewed : List String) (sel : Option String)
    (key : String) (m : LogMsg) (h : viewed.contains key = true) :
    tickCounts viewed sel key m = false := by
  by_cases hk : msgContactKey m = key
  · have hm : msgContactKey m ∈ viewed := hk ▸ List.mem_of_elem_eq_true h
    simp [tickCounts, hm]
  · simp [tickCounts, hk]

theorem tick_preserves_viewed_count (s : ChatState) (w : List LogMsg) (now : Nat)
    (key : String) (hv : s.viewedChats.contains key = true) :
    (checkNewMessagesOk s w now).unreadCounts key = s.unreadCounts key := by
  rw [checkNewMessagesOk_unreadCounts, newUnreadCountsOf_apply]
  have hnil : (w.filter fun m => decide (s.lastCheckedTime < m.timestamp)).filter
      (tickCounts s.viewedChats (selectedKeyOf s) key) = [] := by
    apply List.filter_eq_nil_iff.mpr
    intro x _
    rw [tickCounts_eq_false_of_viewed _ _ _ _ hv]
    exact Bool.false_ne_true
  rw [hnil]
  rfl

theorem runTicks_preserves_viewed_count (key : String) :
    ∀ (ticks : List (List LogMsg × Nat)) (s : ChatState),
      s.viewedChats.contains key = true →
      (runTicks s ticks).unreadCounts key = s.unreadCounts key
  | [], _, _ => rfl
  | (w, now) :: rest, s, hv => by
      have h2 : runTicks s ((w, now) :: rest) = runTicks (checkNewMessagesOk s w now) rest := rfl
      have hv2 : (checkNewMessagesOk s w now).viewedChats.contains key = true := hv
      rw [h2, runTicks_preserves_viewed_count key rest (checkNewMessagesOk s w now) hv2,
        tick_preserves_viewed_count s w now key hv]

theorem selectContact_clears (s : ChatState) (c : Contact) :
    (selectContact s c).unreadCounts (contactKeyOf c) = 0 := by
  simp [selectContact]

theorem selectContact_viewed (s : ChatState) (c : Contact) :
    (selectContact s c).viewedChats.contains (contactKeyOf c) = true := by
  show (if s.viewedChats.contains (contactKeyOf c) = true then s.viewedChats
      else contactKeyOf c :: s.viewedChats).contains (contactKeyOf c) = true
  by_cases h : s.viewedChats.contains (contactKeyOf c) = true
  · rw [if_pos h]
    exact h
  · rw [if_neg h]
    exact List.elem_eq_true_of_mem (List.mem_cons_self _ _)

end Chat

namespace Chat

/-! ### Helper lemmas about the scroll classification -/

theorem scrollStep_smooth_iff (prev n : Nat) :
    (scrollStep prev n).1 = ScrollEvent.scrollSmooth ↔ (0 < prev ∧ prev < n) := by
  show (if prev < n ∧ 0 < prev then ScrollEvent.scrollSmooth
    else if 0 < n ∧ prev = 0 then ScrollEvent.scrollInstant
    else ScrollEvent.noScroll) = ScrollEvent.scrollSmooth ↔ _
  split_ifs with h1 h2
  · exact ⟨fun _ => ⟨h1.2, h1.1⟩, fun _ => rfl⟩
  · exact ⟨False.elim, fun hh => absurd ⟨hh.2, hh.1⟩ h1⟩
  · exact ⟨False.elim, fun hh => absurd ⟨hh.2, hh.1⟩ h1⟩

theorem scrollStep_instant_iff (prev n : Nat) :
    (scrollStep prev n).1 = ScrollEvent.scrollInstant ↔ (prev = 0 ∧ 0 < n) := by
  show (if prev < n ∧ 0 < prev then ScrollEvent.scrollSmooth
    else if 0 < n ∧ prev = 0 then ScrollEvent.scrollInstant
    else ScrollEvent.noScroll) = ScrollEvent.scrollInstant ↔ _
  split_ifs with h1 h2
  · exact ⟨False.elim, fun hh => by omega⟩
  · exact ⟨fun _ => ⟨h2.2, h2.1⟩, fun _ => rfl⟩
  · exact ⟨False.elim, fun hh => absurd ⟨hh.2, hh.1⟩ h2⟩

theorem runScroll_no_instant_of_pos :
    ∀ (lens : List Nat) (prev : Nat), 0 < prev → (∀ n ∈ lens, 0 < n) →
      (runScroll prev lens).count ScrollEvent.scrollInstant = 0
  | [], _, _, _ => rfl
  | n :: rest, prev, hp, hall => by
      have hn : 0 < n := hall n (List.mem_cons_self _ _)
      have hrest := runScroll_no_instant_of_pos rest n hn
        (fun x hx => hall x (List.mem_cons_of_mem _ hx))
      show ((scrollStep prev n).1 :: runScroll n rest).count ScrollEvent.scrollInstant = 0
      have hne : (scrollStep prev n).1 ≠ ScrollEvent.scrollInstant := by
        rw [Ne, scrollStep_instant_iff]
        omega
      simp [List.count_cons, hrest, hne]

theorem runScroll_instant_count :
    ∀ (lens : List Nat), (lens.Pairwise fun a b => 0 < a → 0 < b) →
      (runScroll 0 lens).count ScrollEvent.scrollInstant
        = (if lens.any fun n => decide (0 < n) then 1 else 0)
  | [], _ => rfl
  | n :: rest, h => by
      rcases List.pairwise_cons.mp h with ⟨h1, h2⟩
      show ((scrollStep 0 n).1 :: runScroll n rest).count ScrollEvent.scrollInstant = _
      by_cases hn : 0 < n
      · have hstep : (scrollStep 0 n).1 = ScrollEvent.scrollInstant :=
          (scrollStep_instant_iff 0 n).mpr ⟨rfl, hn⟩
        rw [hstep]
        have h0 := runScroll_no_instant_of_pos rest n hn (fun x hx => h1 x hx hn)
        simp [List.count_cons, h0, hn]
      · have hn0 : n = 0 := by omega
        subst hn0
        have hstep : (scrollStep 0 0).1 = ScrollEvent.noScroll := rfl
        rw [hstep]
        have ih := runScroll_instant_count rest h2
        simp [List.count_cons, ih]

/-! ### Helper lemmas about the stable contact sort -/

theorem filter_time_orderedInsert (t : Nat) (a : Contact) :
    ∀ l : List Contact,
      (List.orderedInsert contactGE a l).filter (fun c => decide (contactTimeKey c = t))
        = if contactTimeKey a = t
            then a :: l.filter (fun c => decide (contactTimeKey c = t))
            else l.filter (fun c => decide (contactTimeKey c = t))
  | [] => by
      by_cases h : contactTimeKey a = t <;> simp [h]
  | b :: l => by
      show (if contactGE a b then a :: b :: l else b :: List.orderedInsert contactGE a l).filter
          (fun c => decide (contactTimeKey c = t)) = _
      by_cases hab : contactGE a b
      · rw [if_pos hab]
        by_cases ha : contactTimeKey a = t <;> simp [List.filter_cons, ha]
      · rw [if_neg hab]
        rw [List.filter_cons, List.filter_cons]
        by_cases ha : contactTimeKey a = t
        · have hb : ¬ contactTimeKey b = t := by
            unfold contactGE at hab
            omega
          rw [filter_time_orderedInsert t a l]
          simp [ha, hb]
        · rw [filter_time_orderedInsert t a l]
          by_cases hb : contactTimeKey b = t <;> simp [ha, hb]

theorem filter_time_insertionSort (t : Nat) :
    ∀ l : List Contact,
      (List.insertionSort contactGE l).filter (fun c => decide (contactTimeKey c = t))
        = l.filter (fun c => decide (contactTimeKey c = t))
  | [] => rfl
  | a :: l => by
      show (List.orderedInsert contactGE a (List.insertionSort contactGE l)).filter
          (fun c => decide (contactTimeKey c = t)) = _
      rw [filter_time_orderedInsert, filter_time_insertionSort t l, List.filter_cons]
      by_cases h : contactTimeKey a = t <;> simp [h]

theorem contactMatches_congr (a b : Contact) (h1 : a.type = b.type)
    (h2 : a.id = b.id) : contactMatches a = contactMatches b := by
  funext m
  unfold contactMatches
  rw [h1, h2]

theorem updateContact_idem (w : List LogMsg) (cnts : String → Nat) (c : Contact) :
    updateContact w cnts (updateContact w cnts c) = updateContact w cnts c := by
  cases h : w.filter (contactMatches c) with
  | nil =>
      have hc : updateContact w cnts c = c := by
        unfold updateContact
        rw [h]
      rw [hc, hc]
  | cons lastMsg rest =>
      have hc : updateContact w cnts c
          = { c with
              lastMessageTime := some lastMsg.timestamp,
              lastMessage := some (lastMsg.message.take 30),
              unread := some (cnts (contactKeyOf c)) } := by
        unfold updateContact
        rw [h]
      rw [hc]
      unfold updateContact
      rw [contactMatches_congr
        { c with
          lastMessageTime := some lastMsg.timestamp,
          lastMessage := some (lastMsg.message.take 30),
          unread := some (cnts (contactKeyOf c)) } c rfl rfl, h]
      rfl

end Chat

namespace Chat

/-! ### Claim theorems -/

/-- Claim C1 names a real bug: the poll effect's dependency array is
`[selectedContact]`, so every tick of a selection epoch filters by the
`lastCheckedTime` the closure captured at effect setup —
`setLastCheckedTime(Date.now())` never reaches the running closure. The
same non-self `group-100` message with timestamp `5`, present in the window
of two consecutive ticks of the epoch starting from `chatS0` (frozen cursor
`0`), is therefore counted at both ticks: the accumulated count is `2`,
violating at-most-once. Under the cursor semantics the claim describes
(`runTicks`, which threads the advanced cursor into the next tick's
filter), the same trace counts it once. -/
theorem unread_recounted_bug :
    (runEpoch chatS0.lastCheckedTime chatS0
        [([msgG 5], 10), ([msgG 5], 20)]).unreadCounts "group-100" = 2
  ∧ (runTicks chatS0 [([msgG 5], 10), ([msgG 5], 20)]).unreadCounts "group-100" = 1
  ∧ (2 : Nat) ≠ 1 :=
  ⟨by decide, by decide, by decide⟩

/-- Claim C2: the selection click sets the key's unread count to 0 and puts
the key in the viewed set, and any run of later polls (including polls
delivering messages for the key) leaves the count of a viewed key
unchanged, so it stays 0 while the key remains selected and viewed. -/
theorem select_clears_and_stays_zero (s : ChatState) (c : Contact)
    (s2 : ChatState) (ticks : List (List LogMsg × Nat)) :
    (selectContact s c).unreadCounts (contactKeyOf c) = 0
  ∧ (selectContact s c).viewedChats.contains (contactKeyOf c) = true
  ∧ (s2.viewedChats.contains (contactKeyOf c) = true →
      (runTicks s2 ticks).unreadCounts (contactKeyOf c)
        = s2.unreadCounts (contactKeyOf c)) :=
  ⟨selectContact_clears s c, selectContact_viewed s c,
   fun hv => runTicks_preserves_viewed_count (contactKeyOf c) ticks s2 hv⟩

/-- Witness for C2: select group `100`, then a poll with two new messages
for it leaves the count at its post-clear value. -/
theorem select_clears_and_stays_zero_witness :
    (selectContact chatS0 contactG).unreadCounts (contactKeyOf contactG) = 0
  ∧ (runTicks (selectContact chatS0 contactG) [([msgG 20], 30)]).unreadCounts
        (contactKeyOf contactG)
      = (selectContact chatS0 contactG).unreadCounts (contactKeyOf contactG) :=
  ⟨(select_clears_and_stays_zero chatS0 contactG chatS0 []).1,
   (select_clears_and_stays_zero chatS0 contactG (selectContact chatS0 contactG)
      [([msgG 20], 30)]).2.2 (by decide)⟩

/-- Claim C3: the reconciled contact list is sorted by `lastMessageTime`
descending (`contactGE`), the sort is stable (each time-key fiber keeps the
original directory order), contacts with no timestamp (key `0`) sort after
every contact with a positive timestamp, and Scenario D's
`[A(none), B(100), C(200)]` reconciles to `[C, B, A]`. -/
theorem reconcile_sorted_stable (dir : List Contact) (w : List LogMsg)
    (cnts : String → Nat) :
    (reconcileContacts w cnts dir).Sorted contactGE
  ∧ (∀ t, (reconcileContacts w cnts dir).filter (fun c => decide (contactTimeKey c = t))
        = (dir.map (updateContact w cnts)).filter (fun c => decide (contactTimeKey c = t)))
  ∧ ((∀ c ∈ dir, ∀ ts, (updateContact w cnts c).lastMessageTime = some ts → 0 < ts) →
        (reconcileContacts w cnts dir).Pairwise
          (fun a b => a.lastMessageTime = none → b.lastMessageTime = none))
  ∧ reconcileContacts [] (fun _ => 0) [contactA, contactB, contactC]
      = [contactC, contactB, contactA] := by
  refine ⟨List.sorted_insertionSort contactGE _,
    fun t => filter_time_insertionSort t _, ?_, by decide⟩
  intro hpos
  have hsorted : (reconcileContacts w cnts dir).Pairwise contactGE :=
    List.sorted_insertionSort contactGE _
  refine hsorted.imp_of_mem ?_
  intro a b ha hb hab hnone
  have hb2 : b ∈ dir.map (updateContact w cnts) := by
    have hmem := List.mem_insertionSort contactGE (l := dir.map (updateContact w cnts)) (x := b)
    exact hmem.mp hb
  rcases List.mem_map.mp hb2 with ⟨c, hc, rfl⟩
  have hkeya : contactTimeKey a = 0 := by
    unfold contactTimeKey
    rw [hnone]
    rfl
  have hkeyb : contactTimeKey (updateContact w cnts c) = 0 := by
    unfold contactGE at hab
    omega
  cases hlmt : (updateContact w cnts c).lastMessageTime with
  | none => rfl
  | some ts =>
      have h1 : 0 < ts := hpos c hc ts hlmt
      unfold contactTimeKey at hkeyb
      rw [hlmt] at hkeyb
      simp at hkeyb
      omega

/-- Witness for C3's positivity-hypothesis conjunct at a concrete
directory. -/
theorem reconcile_sorted_stable_witness :
    (reconcileContacts [] (fun _ => 0) [contactB]).Pairwise
      (fun a b => a.lastMessageTime = none → b.lastMessageTime = none) :=
  (reconcile_sorted_stable [contactB] [] (fun _ => 0)).2.2.1 (by
    intro c hc ts hts
    rw [List.mem_singleton] at hc
    subst hc
    have hh : (updateContact [] (fun _ => 0) contactB).lastMessageTime = some 100 := rfl
    rw [hh] at hts
    injection hts with h
    omega)

/-- Counterexample to claim C4 as stated: the reconciler has no
strictly-newer guard. A contact storing `lastMessageTime = 200` reconciled
against a window whose only matching message has timestamp `100` gets
`lastMessageTime = 100`, an update by a strictly older message. -/
theorem update_not_strictly_newer_cex :
    contactG200.lastMessageTime = some 200
  ∧ (updateContact [msgG 100] (fun _ => 0) contactG200).lastMessageTime = some 100
  ∧ (100 : Nat) < 200 :=
  ⟨rfl, by decide, by omega⟩

/-- Claim C4 (amended): the reconciler overwrites `lastMessageTime` and the
preview with the newest matching window message whenever any match exists
(no strictly-newer check), leaves the contact unchanged when none matches,
and `lastMessageTime` is non-decreasing provided the window's newest
matching message is at least as new as the stored value (as for an
append-only newest-first log). -/
theorem contact_update_overwrite_monotone (w : List LogMsg) (cnts : String → Nat)
    (c : Contact) (lastMsg : LogMsg) (rest : List LogMsg) :
    (w.filter (contactMatches c) = lastMsg :: rest →
        (updateContact w cnts c).lastMessageTime = some lastMsg.timestamp
      ∧ (updateContact w cnts c).lastMessage = some (lastMsg.message.take 30))
  ∧ (w.filter (contactMatches c) = [] → updateContact w cnts c = c)
  ∧ ((∀ m mrest, w.filter (contactMatches c) = m :: mrest →
          contactTimeKey c ≤ m.timestamp) →
        contactTimeKey c ≤ contactTimeKey (updateContact w cnts c)) := by
  refine ⟨?_, ?_, ?_⟩
  · intro h
    constructor <;> (unfold updateContact; rw [h])
  · intro h
    unfold updateContact
    rw [h]
  · intro hmono
    cases h : w.filter (contactMatches c) with
    | nil =>
        have hcc : updateContact w cnts c = c := by
          unfold updateContact
          rw [h]
        rw [hcc]
    | cons m mrest =>
        have hle := hmono m mrest h
        have hlmt : (updateContact w cnts c).lastMessageTime = some m.timestamp := by
          unfold updateContact
          rw [h]
        have h2 : contactTimeKey (updateContact w cnts c) = m.timestamp := by
          unfold contactTimeKey
          rw [hlmt]
          rfl
        rw [h2]
        exact hle

/-- Witness for C4's amended theorem at concrete windows. -/
theorem contact_update_overwrite_monotone_witness :
    ((updateContact [msgG 100] (fun _ => 0) contactG200).lastMessageTime
        = some (msgG 100).timestamp
      ∧ (updateContact [msgG 100] (fun _ => 0) contactG200).lastMessage
        = some ((msgG 100).message.take 30))
  ∧ updateContact [] (fun _ => 0) contactG200 = contactG200
  ∧ contactTimeKey contactG100
      ≤ contactTimeKey (updateContact [msgG 150] (fun _ => 0) contactG100) :=
  ⟨(contact_update_overwrite_monotone [msgG 100] (fun _ => 0) contactG200
      (msgG 100) []).1 (by decide),
   (contact_update_overwrite_monotone [] (fun _ => 0) contactG200
      (msgG 100) []).2.1 rfl,
   (contact_update_overwrite_monotone [msgG 150] (fun _ => 0) contactG100
      (msgG 150) []).2.2 (by
        intro m mrest h
        have he : [msgG 150].filter (contactMatches contactG100) = [msgG 150] := by decide
        rw [he] at h
        injection h with h1 h2
        subst h1
        decide)⟩

/-- Claim C5: the scroll classification per thread update. `prev = 0` and
`new > 0` emits the instant (`'auto'`, non-animated) jump; `new > prev > 0`
emits the animated smooth scroll; every other case emits nothing; and the
baseline is set to the new length after every classification. -/
theorem scroll_classification (prev n : Nat) :
    ((prev = 0 ∧ 0 < n) → (scrollStep prev n).1 = ScrollEvent.scrollInstant)
  ∧ ((0 < prev ∧ prev < n) → (scrollStep prev n).1 = ScrollEvent.scrollSmooth)
  ∧ ((¬(prev = 0 ∧ 0 < n) ∧ ¬(0 < prev ∧ prev < n)) →
        (scrollStep prev n).1 = ScrollEvent.noScroll)
  ∧ (scrollStep prev n).2 = n
  ∧ scrollToBottom "instant" = "auto" ∧ scrollToBottom "smooth" = "smooth" := by
  refine ⟨?_, ?_, ?_, rfl, rfl, rfl⟩
  · intro hh
    exact (scrollStep_instant_iff prev n).mpr hh
  · intro hh
    exact (scrollStep_smooth_iff prev n).mpr hh
  · rintro ⟨h1, h2⟩
    show (if prev < n ∧ 0 < prev then ScrollEvent.scrollSmooth
      else if 0 < n ∧ prev = 0 then ScrollEvent.scrollInstant
      else ScrollEvent.noScroll) = ScrollEvent.noScroll
    rw [if_neg (by omega), if_neg (by omega)]

/-- Witness for C5 covering the three classification cases
(Scenario C's `0 → 10`, `10 → 12`, `10 → 10`). -/
theorem scroll_classification_witness :
    (scrollStep 0 10).1 = ScrollEvent.scrollInstant
  ∧ (scrollStep 10 12).1 = ScrollEvent.scrollSmooth
  ∧ (scrollStep 10 10).1 = ScrollEvent.noScroll :=
  ⟨(scroll_classification 0 10).1 (by omega),
   (scroll_classification 10 12).2.1 (by omega),
   (scroll_classification 10 10).2.2.1 (by omega)⟩

/-- Counterexample to claim C6 as stated: within one selection whose thread
lengths go `5, 0, 5` (the server-authoritative replacement can shrink the
thread to empty), the controller emits `initial` twice, not exactly once. -/
theorem scroll_initial_not_once_cex :
    (runScroll 0 [5, 0, 5]).count ScrollEvent.scrollInstant = 2
  ∧ (runScroll 0 [5, 0, 5]).count ScrollEvent.scrollInstant ≠ 1 := by
  constructor <;> decide

/-- Claim C6 (amended): within one selection (baseline reset to `0`), if
the thread length never returns to `0` after becoming positive, `initial`
is emitted exactly once when some update has positive length and never
otherwise; and per update, `grown` is emitted exactly on a strict increase
from a nonzero baseline, `initial` exactly on `0 → positive`. -/
theorem scroll_initial_once (lens : List Nat)
    (h : lens.Pairwise fun a b => 0 < a → 0 < b) :
    (runScroll 0 lens).count ScrollEvent.scrollInstant
        = (if lens.any fun n => decide (0 < n) then 1 else 0)
  ∧ (∀ prev n, (scrollStep prev n).1 = ScrollEvent.scrollSmooth ↔ (0 < prev ∧ prev < n))
  ∧ (∀ prev n, (scrollStep prev n).1 = ScrollEvent.scrollInstant ↔ (prev = 0 ∧ 0 < n)) :=
  ⟨runScroll_instant_count lens h, scrollStep_smooth_iff, scrollStep_instant_iff⟩

/-- Witness for C6's amended theorem on Scenario C's trace `10, 10, 12`. -/
theorem scroll_initial_once_witness :
    (runScroll 0 [10, 10, 12]).count ScrollEvent.scrollInstant
      = (if [10, 10, 12].any fun n => decide (0 < n) then 1 else 0) :=
  (scroll_initial_once [10, 10, 12] (by decide)).1

/-- Claim C7: a failed poll tick is caught (the embedding is total — no
exception reaches the host), leaves the cursor, the unread map and the
contact list exactly as they were, and the next tick behaves exactly as it
would have without the failure (fixed-cadence retry; the interval itself is
the constant `setInterval(checkNewMessages, 3000)` of the source). -/
theorem poll_failure_preserves_state (s : ChatState) (now now2 : Nat)
    (w : Option (List LogMsg)) :
    (checkNewMessages s none now).lastCheckedTime = s.lastCheckedTime
  ∧ (checkNewMessages s none now).unreadCounts = s.unreadCounts
  ∧ (checkNewMessages s none now).contacts = s.contacts
  ∧ checkNewMessages (checkNewMessages s none now) w now2 = checkNewMessages s w now2 :=
  ⟨rfl, rfl, rfl, rfl⟩

/-- Claim C8: the contact reconciliation is idempotent — re-running it on
its own output with the identical window and per-tick counts yields the
identical sorted list. -/
theorem reconcile_idempotent (w : List LogMsg) (cnts : String → Nat)
    (dir : List Contact) :
    reconcileContacts w cnts (reconcileContacts w cnts dir)
      = reconcileContacts w cnts dir := by
  unfold reconcileContacts sortContacts
  have hmap : (List.insertionSort contactGE (dir.map (updateContact w cnts))).map
        (updateContact w cnts)
      = List.insertionSort contactGE (dir.map (updateContact w cnts)) := by
    have hid : ∀ x ∈ List.insertionSort contactGE (dir.map (updateContact w cnts)),
        updateContact w cnts x = x := by
      intro x hx
      rw [List.mem_insertionSort] at hx
      rcases List.mem_map.mp hx with ⟨c, _, rfl⟩
      exact updateContact_idem w cnts c
    calc (List.insertionSort contactGE (dir.map (updateContact w cnts))).map
          (updateContact w cnts)
        = (List.insertionSort contactGE (dir.map (updateContact w cnts))).map id :=
          List.map_congr_left hid
      _ = _ := List.map_id _
  rw [hmap, (List.sorted_insertionSort contactGE _).insertionSort_eq]

/-- Claim C9: `handleSendMessage` never writes the thread state (for every
guard/result case the `messages` field is untouched — the sent message
becomes visible only through a later `loadMessages` fetch, which replaces
the thread wholesale); and when the guard passes and the request fails, the
handler performs exactly one attempt whose outcome is the surfaced alert
(server detail or the fallback text), leaving the thread unchanged. -/
theorem send_no_append_and_surfaced (s : ChatState) (r : Except (Option String) Unit)
    (detail : Option String) (data : List HistMsg) :
    (handleSendMessage s r).1.messages = s.messages
  ∧ ((jsTrim s.inputMessage).isEmpty = false → s.selectedContact.isNone = false →
      s.sending = false →
        handleSendMessage s (Except.error detail)
          = ({ s with sending := false }, SendOutcome.failed (detail.getD "发送失败")))
  ∧ (loadMessages s (some data)).messages = data := by
  refine ⟨?_, ?_, rfl⟩
  · unfold handleSendMessage
    by_cases hg : ((jsTrim s.inputMessage).isEmpty || s.selectedContact.isNone || s.sending) = true
    · rw [if_pos hg]
    · rw [if_neg hg]
      cases r <;> rfl
  · intro h1 h2 h3
    unfold handleSendMessage
    rw [if_neg (by simp [h1, h2, h3])]

/-- Witness for C9: a concrete failing send is surfaced with the server
detail and leaves everything but the `sending` flag unchanged. -/
theorem send_no_append_and_surfaced_witness :
    handleSendMessage chatSendState (Except.error (some "err"))
      = ({ chatSendState with sending := false }, SendOutcome.failed "err") :=
  (send_no_append_and_surfaced chatSendState (Except.error (some "err"))
    (some "err") []).2.1 (by decide) (by decide) rfl

/-- Counterexample to claim C10 as stated: a tick that brings no messages
for the key does not set the contact's `unread` field to `0` when the
window has no matching message at all — after `chatT1` (field `some 1`) a
tick with an empty window leaves the field at `some 1` although that tick's
count for the key is `0`. -/
theorem contact_unread_not_reset_cex :
    chatT2.contacts.map Contact.unread = [some 1]
  ∧ newUnreadCountsOf chatT1.viewedChats (selectedKeyOf chatT1)
      (List.filter (fun m => decide (chatT1.lastCheckedTime < m.timestamp)) [])
      "group-100" = 0
  ∧ some (1 : Nat) ≠ some (0 : Nat) :=
  ⟨by decide, by decide, by decide⟩

/-- Claim C10 (amended): on a tick, the contact's `unread` field is set to
that single tick's count exactly when the window contains a matching
message, and keeps its previous value when none matches; the accumulated
per-session total lives in the separate map read by the badge
(`badgeCount`), and the two differ on concrete tick sequences: after the
two in-epoch ticks of `chatE2b` (whose frozen cursor `0` re-admits `msgG 5`
at the second tick) the field holds that tick's count `some 2` while the
badge reads the accumulated `3`. -/
theorem contact_unread_single_tick (w : List LogMsg) (cnts : String → Nat)
    (c : Contact) (m : LogMsg) (rest : List LogMsg) :
    (w.filter (contactMatches c) = m :: rest →
        (updateContact w cnts c).unread = some (cnts (contactKeyOf c)))
  ∧ (w.filter (contactMatches c) = [] → (updateContact w cnts c).unread = c.unread)
  ∧ (badgeCount chatE2b "group-100" = 3
      ∧ chatE2b.contacts.map Contact.unread = [some 2]
      ∧ (2 : Nat) ≠ 3) := by
  refine ⟨?_, ?_, by decide, by decide, by decide⟩
  · intro h
    unfold updateContact
    rw [h]
  · intro h
    unfold updateContact
    rw [h]

/-- Witness for C10's amended theorem at concrete windows. -/
theorem contact_unread_single_tick_witness :
    (updateContact [msgG 5] (fun _ => 0) contactG).unread = some 0
  ∧ (updateContact [] (fun _ => 0) contactG).unread = contactG.unread :=
  ⟨(contact_unread_single_tick [msgG 5] (fun _ => 0) contactG (msgG 5) []).1 (by decide),
   (contact_unread_single_tick [] (fun _ => 0) contactG (msgG 5) []).2.1 rfl⟩

end Chat
